import Mathlib

/-!
Verification of the Flora/OS generative core (`generative_core.py`):
a shallow embedding of the `LSystem` rewriting engine and the `Turtle`
3D tracer, with theorems settling the specified properties.

Python floats are modelled as real numbers; a Python exception that
escapes (the `list.pop()` on an empty branch stack) is modelled by
`Option`, with `none` for the aborted trace.
-/

/-- A 3D vector, modelling the numpy float arrays used by the turtle. -/
@[ext]
structure Vec3 where
  x : ℝ
  y : ℝ
  z : ℝ

instance : Add Vec3 := ⟨fun a b => ⟨a.x + b.x, a.y + b.y, a.z + b.z⟩⟩

instance : SMul ℝ Vec3 := ⟨fun r v => ⟨r * v.x, r * v.y, r * v.z⟩⟩

instance : Inhabited Vec3 := ⟨⟨0, 0, 0⟩⟩

theorem Vec3.add_def (a b : Vec3) : a + b = ⟨a.x + b.x, a.y + b.y, a.z + b.z⟩ := rfl

theorem Vec3.smul_def (r : ℝ) (v : Vec3) : r • v = ⟨r * v.x, r * v.y, r * v.z⟩ := rfl

/-- `np.dot` on 3-vectors. -/
def Vec3.dot (a b : Vec3) : ℝ := a.x * b.x + a.y * b.y + a.z * b.z

/-- `np.cross` on 3-vectors. -/
def Vec3.cross (a b : Vec3) : Vec3 :=
  ⟨a.y * b.z - a.z * b.y, a.z * b.x - a.x * b.z, a.x * b.y - a.y * b.x⟩

/-- `np.linalg.norm`: the Euclidean norm. -/
noncomputable def Vec3.norm (v : Vec3) : ℝ := Real.sqrt (Vec3.dot v v)

/-- The Rodrigues rotation expression of `Turtle._rotate`, for a (normalised)
axis and precomputed cosine/sine:
`v * cos_a + cross(axis, v) * sin_a + axis * dot(axis, v) * (1 - cos_a)`. -/
def rodrigues (a : Vec3) (c s : ℝ) (v : Vec3) : Vec3 :=
  c • v + s • (Vec3.cross a v) + (Vec3.dot a v * (1 - c)) • a

/-- The degree-to-radian conversion `np.radians`. -/
noncomputable def radians (deg : ℝ) : ℝ := deg * Real.pi / 180

/-- The mutable state of the Python `Turtle` object. -/
structure Turtle where
  position : Vec3
  direction : Vec3
  up : Vec3
  angle : ℝ
  stack : List (Vec3 × Vec3 × Vec3)
  vertices : List Vec3
  curve_indices : List (List ℕ)
  current_curve : List ℕ

/-- `Turtle.__init__` with the default `start_pos=(0,0,0)`, `start_dir=(0,1,0)`:
`up` is set to `[0, 0, -1]` and `angle` to `np.radians(angle)`. -/
noncomputable def Turtle.mkInit (angleDeg : ℝ) : Turtle :=
  { position := ⟨0, 0, 0⟩
    direction := ⟨0, 1, 0⟩
    up := ⟨0, 0, -1⟩
    angle := radians angleDeg
    stack := []
    vertices := []
    curve_indices := []
    current_curve := [] }

/-- `Turtle.start_new_curve`: `current_curve = [len(vertices)]` followed by
`vertices.append(position)`. -/
def Turtle.start_new_curve (t : Turtle) : Turtle :=
  { t with current_curve := [t.vertices.length]
           vertices := t.vertices ++ [t.position] }

/-- `Turtle._rotate`: a no-op when the axis has zero norm, otherwise the axis
is normalised and both `direction` and `up` are rotated by the Rodrigues
formula. -/
noncomputable def Turtle.rotate (t : Turtle) (axis : Vec3) (ang : ℝ) : Turtle :=
  if Vec3.norm axis = 0 then t
  else
    { t with
        direction := rodrigues ((Vec3.norm axis)⁻¹ • axis) (Real.cos ang) (Real.sin ang)
          t.direction
        up := rodrigues ((Vec3.norm axis)⁻¹ • axis) (Real.cos ang) (Real.sin ang) t.up }

/-- One iteration of the command loop in `Turtle.execute`. `none` models the
uncaught `IndexError` from `self.stack.pop()` on an empty stack. -/
noncomputable def Turtle.execCmd (t : Turtle) (command : Char) (step_length : ℝ) :
    Option Turtle :=
  if command = 'F' then
    some { t with
             position := t.position + step_length • t.direction
             vertices := t.vertices ++ [t.position + step_length • t.direction]
             current_curve :=
               t.current_curve ++ [(t.vertices ++ [t.position + step_length • t.direction]).length - 1] }
  else if command = '+' then
    some (t.rotate t.up t.angle)
  else if command = '-' then
    some (t.rotate t.up (-t.angle))
  else if command = '&' then
    some (t.rotate (Vec3.cross t.direction t.up) t.angle)
  else if command = '^' then
    some (t.rotate (Vec3.cross t.direction t.up) (-t.angle))
  else if command = '[' then
    let t1 := { t with stack := (t.position, t.direction, t.up) :: t.stack }
    let t2 := if t1.current_curve ≠ [] then
        { t1 with curve_indices := t1.curve_indices ++ [t1.current_curve] }
      else t1
    some t2.start_new_curve
  else if command = ']' then
    let t1 := if t.current_curve ≠ [] then
        { t with curve_indices := t.curve_indices ++ [t.current_curve] }
      else t
    match t1.stack with
    | [] => none
    | (p, d, u) :: rest =>
        some (Turtle.start_new_curve
          { t1 with position := p, direction := d, up := u, stack := rest })
  else
    some t

/-- The command loop of `Turtle.execute`, threading the turtle state through
the string. -/
noncomputable def Turtle.execList (t : Turtle) (s : List Char) (step_length : ℝ) :
    Option Turtle :=
  match s with
  | [] => some t
  | c :: rest => (t.execCmd c step_length).bind fun t1 => t1.execList rest step_length

/-- `Turtle.execute`: start the first curve, run the command loop, close the
final open curve, and return `(points, curve_vertex_counts)` where the counts
keep only curves with more than one vertex. -/
noncomputable def Turtle.execute (t : Turtle) (s : List Char) (step_length : ℝ) :
    Option (List Vec3 × List ℕ) :=
  (t.start_new_curve.execList s step_length).map fun tf =>
    let tf2 := if tf.current_curve ≠ [] then
        { tf with curve_indices := tf.curve_indices ++ [tf.current_curve] }
      else tf
    (tf2.vertices, (tf2.curve_indices.filter fun curve => 1 < curve.length).map List.length)

/-- A rule's successor as found in the prompt JSON: either a plain string, or
a list of weighted alternatives (the shape the code tests with
`isinstance(..., str)` and otherwise passes through). -/
inductive RuleVal where
  | strRule (s : List Char)
  | alts (l : List (List Char × ℚ))

/-- The rule table: `char in self.rules` plus `self.rules[char]`. -/
def RuleTable : Type := Char → Option RuleVal

/-- One generation of `LSystem.iterate`: each character is replaced by its
rule's successor when that rule is a plain string, and kept unchanged
otherwise. -/
def stepString (rules : RuleTable) : List Char → List Char
  | [] => []
  | c :: rest =>
    (match rules c with
     | some (RuleVal.strRule s) => s
     | _ => [c]) ++ stepString rules rest

/-- `for _ in range(n): state = step(state)`. -/
def applyRulesN (rules : RuleTable) : ℕ → List Char → List Char
  | 0, st => st
  | n + 1, st => applyRulesN rules n (stepString rules st)

/-- The Python `LSystem` object: the initial string, the rule table, and the
mutable `self.state`. -/
structure LSystem where
  seed : List Char
  rules : RuleTable
  state : List Char

/-- `LSystem.__init__(axiom, rules)`: `self.state = axiom`. -/
def LSystem.mk0 (seed : List Char) (rules : RuleTable) : LSystem :=
  ⟨seed, rules, seed⟩

/-- `LSystem.iterate(n)`: rewrite `self.state` n times; the method's return
value is the new `self.state`. -/
def LSystem.iterate (sys : LSystem) (n : ℕ) : LSystem :=
  { sys with state := applyRulesN sys.rules n sys.state }

/-- The spec's `expand(axiom, rules, generations)` contract, realised by the
code as a fresh `LSystem` iterated `n` times. -/
def expand (seed : List Char) (rules : RuleTable) (n : ℕ) : List Char :=
  ((LSystem.mk0 seed rules).iterate n).state

/-! ### Vector and rotation lemmas -/

theorem Vec3.dot_self_nonneg (v : Vec3) : 0 ≤ Vec3.dot v v := by
  have hx := mul_self_nonneg v.x
  have hy := mul_self_nonneg v.y
  have hz := mul_self_nonneg v.z
  simp only [Vec3.dot]
  linarith

theorem Vec3.dot_self_ne_zero {v : Vec3} (h : Vec3.norm v ≠ 0) : Vec3.dot v v ≠ 0 := by
  intro h0
  exact h (by simp [Vec3.norm, h0])

theorem Vec3.sq_norm (v : Vec3) : Vec3.norm v ^ 2 = Vec3.dot v v :=
  Real.sq_sqrt (Vec3.dot_self_nonneg v)

theorem Vec3.dot_normalized {v : Vec3} (h : Vec3.norm v ≠ 0) :
    Vec3.dot ((Vec3.norm v)⁻¹ • v) ((Vec3.norm v)⁻¹ • v) = 1 := by
  have h2 := Vec3.sq_norm v
  simp only [Vec3.dot] at h2 ⊢
  simp only [Vec3.smul_def]
  field_simp
  linear_combination -h2

theorem rodrigues_parallel {u : Vec3} (h : Vec3.norm u ≠ 0) (c s : ℝ) :
    rodrigues ((Vec3.norm u)⁻¹ • u) c s u = u := by
  have h2 := Vec3.sq_norm u
  simp only [Vec3.dot] at h2
  have hinv : (Vec3.norm u)⁻¹ * (Vec3.norm u)⁻¹ * (u.x * u.x + u.y * u.y + u.z * u.z) = 1 := by
    field_simp
    linear_combination -h2
  ext
  · simp only [rodrigues, Vec3.cross, Vec3.dot, Vec3.smul_def, Vec3.add_def]
    linear_combination ((1 - c) * u.x) * hinv
  · simp only [rodrigues, Vec3.cross, Vec3.dot, Vec3.smul_def, Vec3.add_def]
    linear_combination ((1 - c) * u.y) * hinv
  · simp only [rodrigues, Vec3.cross, Vec3.dot, Vec3.smul_def, Vec3.add_def]
    linear_combination ((1 - c) * u.z) * hinv

theorem rodrigues_inv {a : Vec3} (ha : Vec3.dot a a = 1) {c s : ℝ}
    (hcs : c ^ 2 + s ^ 2 = 1) (v : Vec3) :
    rodrigues a c (-s) (rodrigues a c s v) = v := by
  simp only [Vec3.dot] at ha
  ext
  · simp only [rodrigues, Vec3.cross, Vec3.dot, Vec3.smul_def, Vec3.add_def]
    linear_combination (v.x - (a.x * v.x + a.y * v.y + a.z * v.z) * a.x) * hcs +
      (v.x * s ^ 2 + (a.x * v.x + a.y * v.y + a.z * v.z) * a.x * (1 - c) ^ 2) * ha
  · simp only [rodrigues, Vec3.cross, Vec3.dot, Vec3.smul_def, Vec3.add_def]
    linear_combination (v.y - (a.x * v.x + a.y * v.y + a.z * v.z) * a.y) * hcs +
      (v.y * s ^ 2 + (a.x * v.x + a.y * v.y + a.z * v.z) * a.y * (1 - c) ^ 2) * ha
  · simp only [rodrigues, Vec3.cross, Vec3.dot, Vec3.smul_def, Vec3.add_def]
    linear_combination (v.z - (a.x * v.x + a.y * v.y + a.z * v.z) * a.z) * hcs +
      (v.z * s ^ 2 + (a.x * v.x + a.y * v.y + a.z * v.z) * a.z * (1 - c) ^ 2) * ha

/-! ### Turtle state lemmas -/

theorem Turtle.rotate_position (t : Turtle) (axis : Vec3) (ang : ℝ) :
    (t.rotate axis ang).position = t.position := by
  unfold Turtle.rotate; split <;> rfl

theorem Turtle.rotate_angle (t : Turtle) (axis : Vec3) (ang : ℝ) :
    (t.rotate axis ang).angle = t.angle := by
  unfold Turtle.rotate; split <;> rfl

theorem Turtle.rotate_stack (t : Turtle) (axis : Vec3) (ang : ℝ) :
    (t.rotate axis ang).stack = t.stack := by
  unfold Turtle.rotate; split <;> rfl

theorem Turtle.rotate_vertices (t : Turtle) (axis : Vec3) (ang : ℝ) :
    (t.rotate axis ang).vertices = t.vertices := by
  unfold Turtle.rotate; split <;> rfl

theorem Turtle.rotate_curve_indices (t : Turtle) (axis : Vec3) (ang : ℝ) :
    (t.rotate axis ang).curve_indices = t.curve_indices := by
  unfold Turtle.rotate; split <;> rfl

theorem Turtle.rotate_current_curve (t : Turtle) (axis : Vec3) (ang : ℝ) :
    (t.rotate axis ang).current_curve = t.current_curve := by
  unfold Turtle.rotate; split <;> rfl

theorem Turtle.rotate_up_self (t : Turtle) (ang : ℝ) :
    (t.rotate t.up ang).up = t.up := by
  by_cases h : Vec3.norm t.up = 0
  · simp [Turtle.rotate, h]
  · simp [Turtle.rotate, h, rodrigues_parallel h]

theorem Turtle.execCmd_plus (t : Turtle) (sl : ℝ) :
    t.execCmd '+' sl = some (t.rotate t.up t.angle) := by
  simp [Turtle.execCmd]

theorem Turtle.execCmd_minus (t : Turtle) (sl : ℝ) :
    t.execCmd '-' sl = some (t.rotate t.up (-t.angle)) := by
  simp [Turtle.execCmd]

/-- C9: for every cursor frame (any turtle state), executing `+` and then `-`
with the turtle's turn angle restores the whole state — in particular heading
(`direction`) and `up` are restored exactly, hence within any tolerance. -/
theorem plus_then_minus_restores_frame (t : Turtle) (sl : ℝ) :
    (t.execCmd '+' sl).bind (fun u => u.execCmd '-' sl) = some t := by
  rw [Turtle.execCmd_plus, Option.some_bind, Turtle.execCmd_minus, Turtle.rotate_angle,
    Turtle.rotate_up_self]
  by_cases h : Vec3.norm t.up = 0
  · simp [Turtle.rotate, h]
  · have hcs : Real.cos t.angle ^ 2 + Real.sin t.angle ^ 2 = 1 := Real.cos_sq_add_sin_sq _
    simp only [Turtle.rotate, if_neg h, Real.cos_neg, Real.sin_neg,
      rodrigues_inv (Vec3.dot_normalized h) hcs]

/-! ### Rewriting-engine lemmas and claims -/

theorem applyRulesN_add (rules : RuleTable) (m n : ℕ) (s : List Char) :
    applyRulesN rules n (applyRulesN rules m s) = applyRulesN rules (m + n) s := by
  induction m generalizing s with
  | zero => rw [Nat.zero_add]; rfl
  | succ k ih =>
      have hmn : k + 1 + n = k + n + 1 := by omega
      rw [hmn]
      exact ih (stepString rules s)

/-- C8: expanding for 0 generations returns the starting string unchanged. -/
theorem expand_zero (seed : List Char) (rules : RuleTable) :
    expand seed rules 0 = seed := rfl

/-- C10: `iterate` is cumulative over the stored `state`: `iterate m` followed
by `iterate n` on the same object returns the same string as `iterate (m+n)`
on a fresh object with the same starting string and rules. -/
theorem iterate_cumulative (seed : List Char) (rules : RuleTable) (m n : ℕ) :
    (((LSystem.mk0 seed rules).iterate m).iterate n).state =
      ((LSystem.mk0 seed rules).iterate (m + n)).state := by
  simp [LSystem.iterate, LSystem.mk0, applyRulesN_add]

/-- C3 amended: a symbol whose rule is a list of weighted alternatives is
emitted unchanged by one rewriting generation (only plain-string rules are
substituted). -/
theorem alts_rule_emits_symbol_unchanged (rules : RuleTable) (c : Char)
    (l : List (List Char × ℚ)) (h : rules c = some (RuleVal.alts l)) (rest : List Char) :
    stepString rules (c :: rest) = c :: stepString rules rest := by
  simp [stepString, h]

/-- Witness for the weighted-alternative pass-through: a rule table mapping F
to the single weighted alternative ("AB", 1) leaves F unchanged. -/
theorem alts_rule_unchanged_witness :
    stepString (fun c => if c = 'F' then some (RuleVal.alts [(['A', 'B'], 1)]) else none)
        ('F' :: []) =
      'F' :: stepString
        (fun c => if c = 'F' then some (RuleVal.alts [(['A', 'B'], 1)]) else none) [] :=
  alts_rule_emits_symbol_unchanged
    (fun c => if c = 'F' then some (RuleVal.alts [(['A', 'B'], 1)]) else none)
    'F' [(['A', 'B'], 1)] (by simp) []

/-- C3 counterexample: with the rule table {F ↦ [("AB", 1)]} (a list of
weighted alternatives), one rewriting generation of "F" yields "F", not the
first alternative's successor "AB". -/
theorem alts_rule_counterexample :
    ((LSystem.mk0 ['F']
        (fun c => if c = 'F' then some (RuleVal.alts [(['A', 'B'], 1)]) else none)).iterate
          1).state = ['F'] ∧
      (['F'] : List Char) ≠ ['A', 'B'] := by
  constructor
  · rfl
  · decide

/-! ### Tracer claims -/

/-- C5 amended: the initial cursor frame has position (0,0,0), heading
(0,1,0), up (0,0,-1) — not (0,0,1) — and an empty branch stack. -/
theorem mkInit_frame (angleDeg : ℝ) :
    (Turtle.mkInit angleDeg).position = ⟨0, 0, 0⟩ ∧
      (Turtle.mkInit angleDeg).direction = ⟨0, 1, 0⟩ ∧
      (Turtle.mkInit angleDeg).up = ⟨0, 0, -1⟩ ∧
      (Turtle.mkInit angleDeg).stack = [] :=
  ⟨rfl, rfl, rfl, rfl⟩

/-- C5 counterexample: the initial up vector is (0,0,-1), not the claimed
(0,0,1). -/
theorem mkInit_up_counterexample : (Turtle.mkInit 25).up ≠ (⟨0, 0, 1⟩ : Vec3) := by
  intro h
  have hz := congrArg Vec3.z h
  norm_num [Turtle.mkInit] at hz

/-- C6 amended: the symbols `\` and `/` are not handled by the command
dispatch — they leave the turtle state (heading and up included) unchanged. -/
theorem roll_commands_are_noops (t : Turtle) (sl : ℝ) :
    t.execCmd '\\' sl = some t ∧ t.execCmd '/' sl = some t := by
  constructor <;> simp [Turtle.execCmd]

/-- Modelled from the spec: the `\` command is specified to rotate heading and
up about the axis `heading` by `turnAngle` (roll), with the same Rodrigues
rotation the code uses elsewhere. This behaviour is absent from the code. -/
noncomputable def specRollRotate (t : Turtle) : Turtle :=
  t.rotate t.direction t.angle

/-- C6 counterexample: at the initial frame with angle 90°, the code's `\`
leaves `up` unchanged at (0,0,-1), while the specified roll about heading
would move `up` (its x-coordinate would become -1, not 0). -/
theorem roll_command_counterexample :
    Turtle.execCmd (Turtle.mkInit 90) '\\' 1 ≠ some (specRollRotate (Turtle.mkInit 90)) := by
  have hrad : radians 90 = Real.pi / 2 := by unfold radians; ring
  have hnorm : Vec3.norm (⟨0, 1, 0⟩ : Vec3) = 1 := by
    simp [Vec3.norm, Vec3.dot, Real.sqrt_one]
  have hup : (specRollRotate (Turtle.mkInit 90)).up.x = -1 := by
    rw [specRollRotate, Turtle.rotate, if_neg (by rw [Turtle.mkInit]; rw [hnorm]; norm_num)]
    simp [Turtle.mkInit, rodrigues, Vec3.cross, Vec3.dot, Vec3.smul_def, Vec3.add_def,
      hnorm, hrad, Real.sin_pi_div_two, Real.cos_pi_div_two]
  intro h
  have h1 : Turtle.execCmd (Turtle.mkInit 90) '\\' 1 = some (Turtle.mkInit 90) := by
    simp [Turtle.execCmd]
  rw [h1, Option.some.injEq] at h
  have h2 := congrArg (fun u => u.up.x) h
  rw [show (fun u => u.up.x) (specRollRotate (Turtle.mkInit 90)) = -1 from hup] at h2
  norm_num [Turtle.mkInit] at h2

/-- C2 amended: a `]` encountered while the branch stack is empty makes the
trace fail (the stack pop has nothing to pop): tracing "]F" yields no
geometry at all. -/
theorem stray_close_fails (angleDeg sl : ℝ) :
    Turtle.execute (Turtle.mkInit angleDeg) ([']', 'F']) sl = none := by
  simp [Turtle.execute, Turtle.execList, Turtle.execCmd, Turtle.start_new_curve, Turtle.mkInit]

/-- C2 counterexample: tracing "]F" (stray close, empty stack) does not
succeed — no 2-point curve is recorded, the trace aborts. -/
theorem stray_close_counterexample :
    Turtle.execute (Turtle.mkInit 25) ([']', 'F']) 1 = none := by
  simp [Turtle.execute, Turtle.execList, Turtle.execCmd, Turtle.start_new_curve, Turtle.mkInit]

/-- C7: in any successful trace, every element of the returned
curveVertexCounts is at least 2 — the final filter drops every curve with
fewer than 2 vertices. -/
theorem curve_counts_ge_two (t : Turtle) (s : List Char) (sl : ℝ)
    (pts : List Vec3) (counts : List ℕ)
    (h : t.execute s sl = some (pts, counts)) :
    ∀ c ∈ counts, 2 ≤ c := by
  unfold Turtle.execute at h
  rw [Option.map_eq_some'] at h
  obtain ⟨tf, -, hEq⟩ := h
  have hc := congrArg Prod.snd hEq
  simp only at hc
  intro c hcmem
  rw [← hc] at hcmem
  simp only [List.mem_map] at hcmem
  obtain ⟨l, hl, rfl⟩ := hcmem
  have hlen := List.of_mem_filter hl
  simp only [decide_eq_true_eq] at hlen
  omega

/-- Witness for the curve-count bound: tracing "F" at angle 25°, step 1 yields
curveVertexCounts = [2], whose single element is ≥ 2. -/
theorem curve_counts_ge_two_witness :
    Turtle.execute (Turtle.mkInit 25) (['F']) 1 = some ([⟨0, 0, 0⟩, ⟨0, 1, 0⟩], [2]) ∧
      (2 : ℕ) ∈ ([2] : List ℕ) ∧ 2 ≤ 2 := by
  have hexec : Turtle.execute (Turtle.mkInit 25) (['F']) 1 =
      some ([⟨0, 0, 0⟩, ⟨0, 1, 0⟩], [2]) := by
    simp [Turtle.execute, Turtle.execList, Turtle.execCmd, Turtle.start_new_curve,
      Turtle.mkInit, Vec3.add_def, Vec3.smul_def]
  exact ⟨hexec, by simp,
    curve_counts_ge_two (Turtle.mkInit 25) (['F']) 1 ([⟨0, 0, 0⟩, ⟨0, 1, 0⟩]) [2] hexec 2
      (by simp)⟩

/-- The rule table {F: "F[+F]F[-F]F"} of the concrete scenario. -/
def c1rules : RuleTable := fun c =>
  if c = 'F' then
    some (RuleVal.strRule (['F', '[', '+', 'F', ']', 'F', '[', '-', 'F', ']', 'F']))
  else none

/-- C1 amended: one generation expands "F" to "F[+F]F[-F]F"; tracing it at
angle 25°, step 1.0 yields five 2-vertex curves, not three — the trunk is
split at every `[` and every `]`, so curveVertexCounts = [2,2,2,2,2]. -/
theorem concrete_scenario_five_curves :
    expand (['F']) c1rules 1 = ['F', '[', '+', 'F', ']', 'F', '[', '-', 'F', ']', 'F'] ∧
      (Turtle.execute (Turtle.mkInit 25) (expand (['F']) c1rules 1) 1).map Prod.snd =
        some [2, 2, 2, 2, 2] := by
  constructor
  · rfl
  · show (Turtle.execute (Turtle.mkInit 25)
        (['F', '[', '+', 'F', ']', 'F', '[', '-', 'F', ']', 'F']) 1).map Prod.snd =
      some [2, 2, 2, 2, 2]
    simp [Turtle.execute, Turtle.execList, Turtle.execCmd, Turtle.start_new_curve,
      Turtle.mkInit, Turtle.rotate_position, Turtle.rotate_stack, Turtle.rotate_vertices,
      Turtle.rotate_curve_indices, Turtle.rotate_current_curve, Turtle.rotate_angle]

/-- C1 counterexample: the same concrete scenario produces 5 curves, so the
claimed grouping into exactly 3 curves is false. -/
theorem concrete_scenario_counterexample :
    (Turtle.execute (Turtle.mkInit 25) (expand (['F']) c1rules 1) 1).map
        (fun r => r.snd.length) ≠ some 3 := by
  show (Turtle.execute (Turtle.mkInit 25)
      (['F', '[', '+', 'F', ']', 'F', '[', '-', 'F', ']', 'F']) 1).map
        (fun r => r.snd.length) ≠ some 3
  simp [Turtle.execute, Turtle.execList, Turtle.execCmd, Turtle.start_new_curve,
    Turtle.mkInit, Turtle.rotate_position, Turtle.rotate_stack, Turtle.rotate_vertices,
    Turtle.rotate_curve_indices, Turtle.rotate_current_curve, Turtle.rotate_angle]

/-- Modelled from the spec: the SpatialPointIndex deduplication key — a
point's coordinates rounded to 5 decimal places. The code has no such index;
every recorded position is appended directly to `vertices`. -/
noncomputable def roundKey (v : Vec3) : Vec3 :=
  ⟨(round (v.x * 100000) : ℝ) / 100000,
   (round (v.y * 100000) : ℝ) / 100000,
   (round (v.z * 100000) : ℝ) / 100000⟩

/-- The point list produced by tracing "F[+F]-F" at angle 25°, step 1. -/
noncomputable def c4pts : List Vec3 :=
  ((Turtle.execute (Turtle.mkInit 25) (['F', '[', '+', 'F', ']', '-', 'F']) 1).map
    Prod.fst).getD []

/-- C4 counterexample: tracing "F[+F]-F" appends 6 point entries, and the
entries at indices 1 and 2 are the same point (hence have the same 5-decimal
rounded key) yet occupy two distinct indices — no interning happened. -/
theorem point_dedup_counterexample :
    c4pts.length = 6 ∧
      c4pts.getD 1 default = c4pts.getD 2 default ∧
      roundKey (c4pts.getD 1 default) = roundKey (c4pts.getD 2 default) := by
  have h6 : c4pts.length = 6 := by
    simp [c4pts, Turtle.execute, Turtle.execList, Turtle.execCmd, Turtle.start_new_curve,
      Turtle.mkInit, Turtle.rotate_position, Turtle.rotate_stack, Turtle.rotate_vertices,
      Turtle.rotate_curve_indices, Turtle.rotate_current_curve, Turtle.rotate_angle]
  have h12 : c4pts.getD 1 default = c4pts.getD 2 default := by
    simp [c4pts, Turtle.execute, Turtle.execList, Turtle.execCmd, Turtle.start_new_curve,
      Turtle.mkInit, Turtle.rotate_position, Turtle.rotate_stack, Turtle.rotate_vertices,
      Turtle.rotate_curve_indices, Turtle.rotate_current_curve, Turtle.rotate_angle]
  exact ⟨h6, h12, congrArg roundKey h12⟩

/-- C4 amended: the code appends every recorded position as a new entry (no
point interning): in tracing "F[+F]-F" the branch start, the branch return and
the original advance all record the same coordinate at three distinct indices
1, 2 and 4 of the 6-entry point list. -/
theorem point_append_no_dedup :
    c4pts.length = 6 ∧
      c4pts.getD 1 default = c4pts.getD 2 default ∧
      c4pts.getD 2 default = c4pts.getD 4 default := by
  refine ⟨?_, ?_, ?_⟩ <;>
    simp [c4pts, Turtle.execute, Turtle.execList, Turtle.execCmd, Turtle.start_new_curve,
      Turtle.mkInit, Turtle.rotate_position, Turtle.rotate_stack, Turtle.rotate_vertices,
      Turtle.rotate_curve_indices, Turtle.rotate_current_curve, Turtle.rotate_angle]
